import Mathlib

set_option autoImplicit false

/-! Shallow embedding of the resource-aggregation and streaming core of the
be-managed-k3s service, translated from the JavaScript sources.
Modelling conventions: JavaScript strings are `String`; `undefined` is
`Option.none`; `NaN` on a numeric result is `Option.none` (or `JsVal.nan`);
JavaScript numbers are modelled as exact rationals, with the decimal
roundings (`toFixed`, `Math.round`) made explicit. -/

/-- JS truthiness of an optional string: `undefined` and `""` are falsy. -/
def jsTruthyStr : Option String → Bool
  | none => false
  | some s => s ≠ ""

/-- JS `v || d` on an optional string: keep `v` when truthy (non-empty),
otherwise the default `d`. -/
def jsOr (v : Option String) (d : String) : String :=
  match v with
  | some s => if s = "" then d else s
  | none => d

/-- Model of the JavaScript test `s.endsWith(post)`, via character lists so
that every use is kernel-computable. -/
def endsWithStr (s post : String) : Bool :=
  post.toList.isSuffixOf s.toList

/-- Model of the JavaScript call `s.slice(0, -n)`: drop the last `n`
characters. -/
def dropRightStr (s : String) (n : Nat) : String :=
  String.mk (s.toList.take (s.toList.length - n))

/-- Leading decimal digits of a character list. -/
def leadingDigits : List Char → List Char
  | [] => []
  | c :: rest => if c.isDigit then c :: leadingDigits rest else []

/-- Numeric value of a list of decimal digits. -/
def digitsToNat (ds : List Char) : Nat :=
  ds.foldl (fun acc c => acc * 10 + (c.toNat - 48)) 0

/-- Model of JavaScript `parseInt(s)` in base 10: skip spaces, optional
sign, then the leading digits; `none` models `NaN` (no digits at all). -/
def parseIntJs (s : String) : Option Int :=
  let cs := s.toList.dropWhile (fun c => c = ' ')
  match cs with
  | '-' :: rest =>
      let ds := leadingDigits rest
      if ds.isEmpty then none else some (-(digitsToNat ds : Int))
  | '+' :: rest =>
      let ds := leadingDigits rest
      if ds.isEmpty then none else some ((digitsToNat ds : Nat) : Int)
  | _ =>
      let ds := leadingDigits cs
      if ds.isEmpty then none else some ((digitsToNat ds : Nat) : Int)

/-- Model of JavaScript `parseFloat(s)` on the decimal quantity strings this
service receives: optional sign, integer digits, optional fraction digits;
`none` models `NaN`.  Exponents never occur in orchestrator quantity
strings and are not modelled. -/
def parseFloatJs (s : String) : Option ℚ :=
  let cs := s.toList.dropWhile (fun c => c = ' ')
  let core : List Char → ℚ → Option ℚ := fun cs1 sign =>
    let ds := leadingDigits cs1
    match cs1.drop ds.length with
    | '.' :: rest2 =>
        let fs := leadingDigits rest2
        if ds.isEmpty && fs.isEmpty then none
        else some (sign * ((digitsToNat ds : ℚ) +
          (digitsToNat fs : ℚ) / ((10 : ℚ) ^ fs.length)))
    | _ => if ds.isEmpty then none else some (sign * (digitsToNat ds : ℚ))
  match cs with
  | '-' :: rest => core rest (-1)
  | '+' :: rest => core rest 1
  | _ => core cs 1

/-- JavaScript `Math.round`: floor of x + 1/2. -/
def jsRound (q : ℚ) : ℤ := Int.floor (q + 1/2)

/-- Model of `parseFloat(x.toFixed(d))` for the non-negative quantities this
service computes: round to `d` decimal places, halves rounding up. -/
def toFixed (d : Nat) (q : ℚ) : ℚ :=
  (Int.floor (q * (10 : ℚ) ^ d + 1/2) : ℚ) / (10 : ℚ) ^ d

/-- CPU branch of the pod metrics joiner (src/services/pod/pod.metrics.js
lines 39-43, duplicated in src/services/pod.service.js lines 44-48):
cpuUsage.endsWith("n") ? parseFloat((parseInt(cpuUsage.slice(0,-1)) /
1000000).toFixed(2)) : parseFloat(cpuUsage) || 0.  The result is `none`
exactly when the JavaScript expression is `NaN`. -/
def podCpuMillicores (cpuUsage : String) : Option ℚ :=
  if endsWithStr cpuUsage "n" then
    (parseIntJs (dropRightStr cpuUsage 1)).map (fun (n : ℤ) => toFixed 2 ((n : ℚ) / 1000000))
  else
    some ((parseFloatJs cpuUsage).getD 0)

/-- Memory branch of the pod metrics joiner (src/services/pod/pod.metrics.js
lines 46-48): memoryUsage.endsWith("Ki") ? parseInt(memoryUsage.slice(0,-2))
* 1024 : parseInt(memoryUsage) || 0. -/
def podMemoryBytes (memoryUsage : String) : Option ℚ :=
  if endsWithStr memoryUsage "Ki" then
    (parseIntJs (dropRightStr memoryUsage 2)).map (fun (n : ℤ) => (n : ℚ) * 1024)
  else
    some (((parseIntJs memoryUsage).getD 0 : ℤ) : ℚ)

/-- JavaScript value that is a number, a string, or NaN; the node metrics
normalizers pass the raw string through unchanged on the unsuffixed
branch, so their result is not always numeric. -/
inductive JsVal where
  | num (q : ℚ)
  | str (s : String)
  | nan
deriving DecidableEq

/-- CPU conversion of the node metrics joiner (src/services/node.service.js
lines 27-29): cpuUsage.endsWith("n") ?
Math.round(parseInt(cpuUsage.slice(0,-1)) / 1000000) : cpuUsage. -/
def nodeCpuMillicores (cpuUsage : String) : JsVal :=
  if endsWithStr cpuUsage "n" then
    match parseIntJs (dropRightStr cpuUsage 1) with
    | some n => .num ((jsRound ((n : ℚ) / 1000000) : ℤ) : ℚ)
    | none => .nan
  else .str cpuUsage

/-- Memory conversion of the node metrics joiner (src/services/node.service.js
lines 32-34): memoryUsage.endsWith("Ki") ?
parseInt(memoryUsage.slice(0,-2)) * 1024 : memoryUsage. -/
def nodeMemoryBytes (memoryUsage : String) : JsVal :=
  if endsWithStr memoryUsage "Ki" then
    match parseIntJs (dropRightStr memoryUsage 2) with
    | some n => .num ((n : ℚ) * 1024)
    | none => .nan
  else .str memoryUsage

/-- Usage record of one container inside a pod metrics item
(podMetric.containers[i].usage; `none` models an absent field). -/
structure ContainerUsage where
  cpu : Option String
  memory : Option String
deriving DecidableEq

/-- JS addition on possibly-NaN numbers: NaN propagates. -/
def jsAdd (a b : Option ℚ) : Option ℚ :=
  match a, b with
  | some x, some y => some (x + y)
  | _, _ => none

/-- State of the container loop in getPodMetrics
(src/services/pod/pod.metrics.js lines 22-25): raw strings captured from
the first container, running totals of converted cpu millicores and
memory bytes. -/
structure MetricsLoopAcc where
  cpuUsageRaw : String
  memoryUsageRaw : String
  totalCpuUsage : Option ℚ
  totalMemoryUsage : Option ℚ
deriving DecidableEq

/-- One iteration of the container loop (src/services/pod/pod.metrics.js
lines 28-52): default the usage strings with || "0", capture the raw
strings while cpuUsageRaw is still falsy, normalize this container's cpu
and memory, and add both to the running totals. -/
def metricsLoopStep (acc : MetricsLoopAcc) (c : ContainerUsage) : MetricsLoopAcc :=
  let cpuUsage := jsOr c.cpu "0"
  let memoryUsage := jsOr c.memory "0"
  let acc1 :=
    if acc.cpuUsageRaw = "" then
      { acc with cpuUsageRaw := cpuUsage, memoryUsageRaw := memoryUsage }
    else acc
  { acc1 with
    totalCpuUsage := jsAdd acc1.totalCpuUsage (podCpuMillicores cpuUsage)
    totalMemoryUsage := jsAdd acc1.totalMemoryUsage (podMemoryBytes memoryUsage) }

/-- CPU part of a metrics sample (usage.cpu). -/
structure CpuSample where
  raw : String
  millicores : Option ℚ
  cores : Option ℚ
deriving DecidableEq

/-- Memory part of a metrics sample (usage.memory). -/
structure MemorySample where
  raw : String
  bytes : Option ℚ
  megabytes : Option ℚ
  gigabytes : Option ℚ
deriving DecidableEq

/-- Metrics sample stored per pod in the metrics map
(src/services/pod/pod.metrics.js lines 55-75; timestamp and window are
copied through unchanged and omitted here). -/
structure PodSample where
  cpu : CpuSample
  memory : MemorySample
deriving DecidableEq

/-- NaN-propagating toFixed. -/
def toFixedOpt (d : Nat) (q : Option ℚ) : Option ℚ := q.map (toFixed d)

/-- The sample built for one pod metrics item from its container list
(src/services/pod/pod.metrics.js lines 22-75). -/
def podSampleOfContainers (containers : List ContainerUsage) : PodSample :=
  let acc := containers.foldl metricsLoopStep ⟨"", "", some 0, some 0⟩
  { cpu :=
      { raw := jsOr (some acc.cpuUsageRaw) "0n"
        millicores := toFixedOpt 2 acc.totalCpuUsage
        cores := toFixedOpt 2 (acc.totalCpuUsage.map (fun q => q / 1000)) }
    memory :=
      { raw := jsOr (some acc.memoryUsageRaw) "0Ki"
        bytes := acc.totalMemoryUsage
        megabytes := (acc.totalMemoryUsage).map (fun q => toFixed 1 (q / (1024 * 1024)))
        gigabytes := (acc.totalMemoryUsage).map (fun q => toFixed 1 (q / (1024 * 1024 * 1024))) } }

/-- One item of the pod metrics listing (`ns` embeds metadata.namespace,
which is a reserved word in Lean). -/
structure PodMetricItem where
  name : Option String
  ns : Option String
  containers : Option (List ContainerUsage)
deriving DecidableEq

/-- Insert-or-replace on the JS-object metrics map: assigning to an
existing key keeps its original insertion position. -/
def upsert (m : List (String × PodSample)) (k : String) (v : PodSample) :
    List (String × PodSample) :=
  match m with
  | [] => [(k, v)]
  | (k0, v0) :: rest => if k0 = k then (k0, v) :: rest else (k0, v0) :: upsert rest k v

/-- Metrics-map construction of getPodMetrics (src/services/pod/pod.metrics.js
lines 14-77): items whose name and namespace are truthy are keyed by
namespace ++ "/" ++ name. -/
def buildPodMetricsMap (items : List PodMetricItem) : List (String × PodSample) :=
  items.foldl
    (fun m item =>
      if jsTruthyStr item.name && jsTruthyStr item.ns then
        upsert m ((item.ns.getD "") ++ "/" ++ (item.name.getD ""))
          (podSampleOfContainers (item.containers.getD []))
      else m)
    []

/-- Full getPodMetrics (src/services/pod/pod.metrics.js lines 5-86,
duplicated in src/services/pod.service.js lines 11-91), abstracted over
the metrics fetch: a thrown error (caught at lines 80-85) or a response
without an items array (lines 9-11) both yield the empty map. -/
def getPodMetrics (fetch : Except String (Option (List PodMetricItem))) :
    List (String × PodSample) :=
  match fetch with
  | .error _ => []
  | .ok none => []
  | .ok (some items) => buildPodMetricsMap items

/-- A failed metrics fetch: a thrown error (backend absent, network error)
or a malformed response with no items field. -/
def metricsFetchFailed : Except String (Option (List PodMetricItem)) → Bool
  | .error _ => true
  | .ok none => true
  | .ok (some _) => false

/-- Modelled from the spec (section 4.2), for comparison with the code:
raw container cpu quantities are summed first without intermediate
rounding and the sum is normalized (rounded to two-decimal millicores)
exactly once. -/
def specCpuSumThenNormalizeOnce (containers : List ContainerUsage) : Option ℚ :=
  toFixedOpt 2 (containers.foldl
    (fun acc c =>
      let cpuUsage := jsOr c.cpu "0"
      jsAdd acc
        (if endsWithStr cpuUsage "n" then
          (parseIntJs (dropRightStr cpuUsage 1)).map (fun (n : ℤ) => (n : ℚ) / 1000000)
        else some ((parseFloatJs cpuUsage).getD 0)))
    (some 0))

/-- The raw Ki integer of one container's defaulted memory usage string,
when the string is Ki-suffixed with a parseable integer. -/
def kiInt (c : ContainerUsage) : Option ℤ :=
  if endsWithStr (jsOr c.memory "0") "Ki" then
    parseIntJs (dropRightStr (jsOr c.memory "0") 2)
  else none

/-- Resource amount strings of a container spec (resources.requests or
resources.limits). -/
structure ResourceAmounts where
  cpu : Option String
  memory : Option String
deriving DecidableEq

/-- The resources object of a container spec. -/
structure ContainerResources where
  requests : Option ResourceAmounts
  limits : Option ResourceAmounts
deriving DecidableEq

/-- Fields of a container spec read by the resource loop. -/
structure ContainerSpec where
  name : String
  resources : Option ContainerResources
deriving DecidableEq

/-- One entry of status.conditions. -/
structure PodCondition where
  type : Option String
  status : Option String
deriving DecidableEq

/-- Fields of a raw pod read by the transformer and the aggregate
counters (`ns` embeds metadata.namespace). -/
structure RawPod where
  name : Option String
  ns : Option String
  phase : Option String
  conditions : Option (List PodCondition)
  containers : Option (List ContainerSpec)
  nodeName : Option String
deriving DecidableEq

/-- Accumulator of the resource requests/limits loop
(src/services/pod/pod.transformer.js lines 65-72), initialised to "0" in
each field. -/
structure ResAcc where
  reqCpu : String
  reqMem : String
  limCpu : String
  limMem : String
deriving DecidableEq

/-- One iteration of the resource loop (src/services/pod/pod.transformer.js
lines 75-92): each truthy requests/limits cpu/memory string overwrites the
corresponding accumulator field, so the last truthy value survives the
loop. -/
def resStep (acc : ResAcc) (c : ContainerSpec) : ResAcc :=
  let req := c.resources.bind (fun r => r.requests)
  let lim := c.resources.bind (fun r => r.limits)
  { reqCpu := jsOr (req.bind (fun r => r.cpu)) acc.reqCpu
    reqMem := jsOr (req.bind (fun r => r.memory)) acc.reqMem
    limCpu := jsOr (lim.bind (fun r => r.cpu)) acc.limCpu
    limMem := jsOr (lim.bind (fun r => r.memory)) acc.limMem }

/-- Resource requests/limits of the transformed pod
(src/services/pod/pod.transformer.js lines 64-93). -/
def calcResources (containers : List ContainerSpec) : ResAcc :=
  containers.foldl resStep ⟨"0", "0", "0", "0"⟩

/-- Readiness computation (src/services/pod/pod.transformer.js lines 4-6):
find the first condition of type "Ready" and compare its status against
exactly the string "True". -/
def isReadyPod (conditions : List PodCondition) : Bool :=
  match conditions.find? (fun c => c.type = some "Ready") with
  | some c => c.status = some "True"
  | none => false

/-- JS template-literal rendering of a possibly-undefined string. -/
def jsTemplate (v : Option String) : String := v.getD "undefined"

/-- Assoc-list lookup modelling podMetricsMap[key] followed by || null. -/
def lookupSample : List (String × PodSample) → String → Option PodSample
  | [], _ => none
  | (k0, v) :: rest, k => if k0 = k then some v else lookupSample rest k

/-- Transformed pod record: the fields of the output of transformPodData
that the verified claims mention (the remaining fields are independent
verbatim copies of raw fields). -/
structure PodRecord where
  name : Option String
  ns : Option String
  phase : String
  ready : Bool
  conditions : List PodCondition
  resources : ResAcc
  metrics : Option PodSample
deriving DecidableEq

/-- transformPodData (src/services/pod/pod.transformer.js lines 1-139; the
same logic is duplicated inline in getAllPods and getPodByName of
src/services/pod.service.js). -/
def transformPodData (pod : RawPod) (podMetricsMap : List (String × PodSample)) :
    PodRecord :=
  let conditions := pod.conditions.getD []
  { name := pod.name
    ns := pod.ns
    phase := jsOr pod.phase "Unknown"
    ready := isReadyPod conditions
    conditions := conditions
    resources := calcResources (pod.containers.getD [])
    metrics := lookupSample podMetricsMap
      (jsTemplate pod.ns ++ "/" ++ jsTemplate pod.name) }

/-- getAllPods orchestrator (src/services/pod.service.js lines 93-312),
abstracted over its two upstream fetches: the pod listing (a thrown error
or a response without an items array is fatal, lines 120-133 and 290-311)
and the metrics fetch (always recovered, lines 135-144). -/
def getAllPods (listing : Except String (Option (List RawPod)))
    (metricsFetch : Except String (Option (List PodMetricItem))) :
    Except String (List PodRecord) :=
  match listing with
  | .error e => .error ("Failed to fetch pods: " ++ e)
  | .ok none => .error "No pods found in cluster or invalid response format"
  | .ok (some items) =>
      let podMetricsMap := getPodMetrics metricsFetch
      .ok (items.map (fun pod => transformPodData pod podMetricsMap))

/-- Modelled from the spec (section 4.4), for comparison with the code:
the first non-empty value in a list of optional strings, with a
default. -/
def firstNonEmptySpec (xs : List (Option String)) (d : String) : String :=
  match (xs.filterMap id).filter (fun s => s ≠ "") with
  | [] => d
  | s :: _ => s

/-- The last non-empty value in a list of optional strings, with a
default: the corrected description of the resource loop. -/
def lastNonEmptySpec (xs : List (Option String)) (d : String) : String :=
  ((xs.filterMap id).filter (fun s => s ≠ "")).getLastD d

/-- The requests.cpu string of a container spec, as read by the loop. -/
def extractReqCpu (c : ContainerSpec) : Option String :=
  (c.resources.bind (fun r => r.requests)).bind (fun r => r.cpu)

/-- The requests.memory string of a container spec. -/
def extractReqMem (c : ContainerSpec) : Option String :=
  (c.resources.bind (fun r => r.requests)).bind (fun r => r.memory)

/-- The limits.cpu string of a container spec. -/
def extractLimCpu (c : ContainerSpec) : Option String :=
  (c.resources.bind (fun r => r.limits)).bind (fun r => r.cpu)

/-- The limits.memory string of a container spec. -/
def extractLimMem (c : ContainerSpec) : Option String :=
  (c.resources.bind (fun r => r.limits)).bind (fun r => r.memory)

/-- Per-group phase histogram (the pods field of enriched nodes and
namespaces). -/
structure PhaseCounts where
  total : Nat
  running : Nat
  pending : Nat
  failed : Nat
  succeeded : Nat
deriving DecidableEq

/-- Per-pod update of one group's counts (src/services/node.service.js
lines 119-130 and the namespace service lines 60-71): total always
increments, then exactly one of the four recognised phases increments. -/
def bumpPhase (c : PhaseCounts) (phase : Option String) : PhaseCounts :=
  let c1 := { c with total := c.total + 1 }
  if phase = some "Running" then { c1 with running := c1.running + 1 }
  else if phase = some "Pending" then { c1 with pending := c1.pending + 1 }
  else if phase = some "Failed" then { c1 with failed := c1.failed + 1 }
  else if phase = some "Succeeded" then { c1 with succeeded := c1.succeeded + 1 }
  else c1

/-- Insert-or-bump on the JS-object group map: a fresh key is initialised
to the zero histogram before the increments run. -/
def updateGroup (m : List (String × PhaseCounts)) (k : String) (ph : Option String) :
    List (String × PhaseCounts) :=
  match m with
  | [] => [(k, bumpPhase ⟨0, 0, 0, 0, 0⟩ ph)]
  | (k0, c0) :: rest =>
      if k0 = k then (k0, bumpPhase c0 ph) :: rest
      else (k0, c0) :: updateGroup rest k ph

/-- One iteration of the counting loop (src/services/node.service.js lines
107-132): pods with a falsy group key are skipped entirely. -/
def countStep (f : RawPod → Option String) (m : List (String × PhaseCounts))
    (p : RawPod) : List (String × PhaseCounts) :=
  match f p with
  | none => m
  | some k => if k = "" then m else updateGroup m k p.phase

/-- The aggregate counter: one pass over the pod listing grouped by the
extracted key (spec.nodeName in node.service.js, metadata.namespace in the
namespace service). -/
def countPodsByGroup (pods : List RawPod) (f : RawPod → Option String) :
    List (String × PhaseCounts) :=
  pods.foldl (countStep f) []

/-- Sum of the total fields over all groups of a group map. -/
def sumTotals (m : List (String × PhaseCounts)) : Nat :=
  (m.map (fun kv => kv.2.total)).sum

/-- Assoc-list lookup on the group map. -/
def lookupGroup : List (String × PhaseCounts) → String → Option PhaseCounts
  | [], _ => none
  | (k0, c) :: rest, k => if k0 = k then some c else lookupGroup rest k

/-- The pods field attached to an enriched node or namespace record
(src/services/node.service.js lines 147-153, namespace service lines
86-92): podsByNode[name] || an explicit all-zero object.  A JS property
access with an undefined key reads the key "undefined". -/
def nodePodsField (m : List (String × PhaseCounts)) (name : Option String) :
    PhaseCounts :=
  match lookupGroup m (name.getD "undefined") with
  | some c => c
  | none => ⟨0, 0, 0, 0, 0⟩

/-- WebSocket readyState values. -/
inductive WsState where
  | CONNECTING
  | OPEN
  | CLOSING
  | CLOSED
deriving DecidableEq

/-- An action performed on the client WebSocket by one of the bridge
handlers. -/
inductive ClientAction where
  | send (data : String)
  | close (code : Nat) (reason : String)
  | closeNoArgs
deriving DecidableEq

/-- Events handled by connectToPodTerminal (terminal websocket module,
src/unnamed/part_002 lines 46-155). -/
inductive TermEvent where
  | execExit
  | stdoutData (data : String)
  | stderrData (data : String)
  | stdoutError
  | stderrError
  | stdinError
  | setupError (msg : String)
deriving DecidableEq

/-- Client-channel actions each connectToPodTerminal handler performs,
given the client readyState at the moment the event fires: the exec exit
callback (lines 55-60), the stdout/stderr data handlers (lines 66-77),
the stdout error handler (lines 121-126), the stderr/stdin error handlers
(lines 128-134, which only log), and the setup catch block (lines
148-155). -/
def terminalClientActions : TermEvent → WsState → List ClientAction
  | .execExit, st =>
      if st = .OPEN then [.close 1000 "Process finished"] else []
  | .stdoutData d, st => if st = .OPEN then [.send d] else []
  | .stderrData d, st => if st = .OPEN then [.send d] else []
  | .stdoutError, st =>
      if st = .OPEN then [.close 1011 "stdout stream error"] else []
  | .stderrError, _ => []
  | .stdinError, _ => []
  | .setupError m, st =>
      if st = .OPEN then [.close 1011 ("Error setting up exec: " ++ m)] else []

/-- Events handled by streamPodLogs (src/unnamed/part_002 lines 187-285). -/
inductive LogEvent where
  | logData (chunk : String)
  | logStreamError
  | logDone
  | logApiError (msg : String)
  | setupError (msg : String)
deriving DecidableEq

/-- Client-channel actions each streamPodLogs handler performs: the log
data handler (lines 212-216), the log stream error handler (lines
218-223), the log completion callback (lines 230-239), the log API
rejection handler (lines 248-261) and the setup catch block (lines
274-284). -/
def logClientActions : LogEvent → WsState → List ClientAction
  | .logData c, st => if st = .OPEN then [.send c] else []
  | .logStreamError, st =>
      if st = .OPEN then [.close 1011 "Log stream error"] else []
  | .logDone, st => if st = .OPEN then [.closeNoArgs] else []
  | .logApiError m, st =>
      if st = .OPEN then
        [.send ("Error: " ++ m), .close 1011 ("Error streaming logs: " ++ m)]
      else []
  | .setupError m, st =>
      if st = .OPEN then [.close 1011 ("Error setting up log stream: " ++ m)] else []

/-- Container resolution of connectToPodTerminal (src/unnamed/part_002
lines 16-34): a truthy explicit container name is used as-is; otherwise
the pod spec is fetched and the first declared container chosen, throwing
when the container list is empty (the list also stands for an undefined
containers field, which takes the same throwing branch). -/
def resolveTargetContainer (containerName : Option String)
    (podFetch : Except String (List String)) (podName : String) :
    Except String String :=
  if jsTruthyStr containerName then .ok (containerName.getD "")
  else
    match podFetch with
    | .error e => .error e
    | .ok [] => .error ("No containers found in pod: " ++ podName)
    | .ok (c :: _) => .ok c

/-- Outcome of the setup phase of one terminal session: the container
passed to exec.exec when the remote channel was opened (none when it never
was), and the actions performed on the client channel. -/
structure ExecSessionOutcome where
  execContainer : Option String
  clientActions : List ClientAction
deriving DecidableEq

/-- Setup phase of connectToPodTerminal (src/unnamed/part_002 lines
18-61 and the catch block at lines 148-155): resolve the container, open
the remote exec channel on success, or close the client channel with code
1011 and the error message when resolution threw and the channel is still
open. -/
def connectToPodTerminal (containerName : Option String)
    (podFetch : Except String (List String)) (podName : String)
    (st : WsState) : ExecSessionOutcome :=
  match resolveTargetContainer containerName podFetch podName with
  | .error msg =>
      { execContainer := none
        clientActions :=
          if st = .OPEN then [.close 1011 ("Error setting up exec: " ++ msg)] else [] }
  | .ok c => { execContainer := some c, clientActions := [] }

/-- Helper: a two-decimal rounding times 100 is an integer rational. -/
lemma toFixed_two_mul_hundred_den (q : ℚ) : (toFixed 2 q * 100).den = 1 := by
  have h : toFixed 2 q * 100 = ((Int.floor (q * (10 : ℚ) ^ 2 + 1/2) : ℤ) : ℚ) := by
    unfold toFixed
    rw [show ((10 : ℚ) ^ 2 : ℚ) = 100 by norm_num]
    exact div_mul_cancel₀ _ (by norm_num)
  rw [h]
  exact Rat.den_intCast _

/-- C8, corrected claim: for n-suffixed quantities the node-metrics
normalizer rounds to the nearest integer millicore (its numeric results are
integer rationals), while the pod-metrics normalizer rounds to two decimal
places (its millicores is a multiple of 1/100 and can be fractional); both
map "500000000n" to 500, the pod normalizer maps "" to 0, and the node
normalizer passes non-n-suffixed strings through unchanged. -/
theorem c8_cpu_normalizer_amended :
    (∀ s q, nodeCpuMillicores s = JsVal.num q → q.den = 1) ∧
    (∀ s q, endsWithStr s "n" = true → podCpuMillicores s = some q →
      (q * 100).den = 1) ∧
    podCpuMillicores "500000000n" = some 500 ∧
    nodeCpuMillicores "500000000n" = JsVal.num 500 ∧
    podCpuMillicores "" = some 0 ∧
    (∀ s, endsWithStr s "n" = false → nodeCpuMillicores s = JsVal.str s) := by
  refine ⟨?_, ?_, ?_, ?_, ?_, ?_⟩
  · intro s q h
    unfold nodeCpuMillicores at h
    by_cases he : endsWithStr s "n" = true
    · rw [he] at h
      simp only [if_true] at h
      cases hp : parseIntJs (dropRightStr s 1) with
      | none => rw [hp] at h; simp at h
      | some n =>
          rw [hp] at h
          simp only [JsVal.num.injEq] at h
          rw [← h]
          exact Rat.den_intCast _
    · simp only [Bool.not_eq_true] at he
      rw [he] at h
      simp at h
  · intro s q he h
    unfold podCpuMillicores at h
    rw [he] at h
    simp only [if_true] at h
    cases hp : parseIntJs (dropRightStr s 1) with
    | none => rw [hp] at h; simp at h
    | some n =>
        rw [hp] at h
        simp only [Option.map_some', Option.some.injEq] at h
        rw [← h]
        exact toFixed_two_mul_hundred_den _
  · have h1 : endsWithStr "500000000n" "n" = true := by decide
    have h2 : parseIntJs (dropRightStr "500000000n" 1) = some 500000000 := by decide
    simp [podCpuMillicores, h1, h2, toFixed]
    norm_num
  · have h1 : endsWithStr "500000000n" "n" = true := by decide
    have h2 : parseIntJs (dropRightStr "500000000n" 1) = some 500000000 := by decide
    simp [nodeCpuMillicores, h1, h2, jsRound]
    norm_num
  · have h1 : endsWithStr "" "n" = false := by decide
    have h2 : parseFloatJs "" = none := by decide
    simp [podCpuMillicores, h1, h2]
  · intro s he
    simp [nodeCpuMillicores, he]

/-- Witness for c8_cpu_normalizer_amended at a concrete input. -/
theorem c8_cpu_normalizer_amended_witness :
    nodeCpuMillicores "2500000n" = JsVal.num 3 ∧ (3 : ℚ).den = 1 := by
  have h : nodeCpuMillicores "2500000n" = JsVal.num 3 := by
    have h1 : endsWithStr "2500000n" "n" = true := by decide
    have h2 : parseIntJs (dropRightStr "2500000n" 1) = some 2500000 := by decide
    simp [nodeCpuMillicores, h1, h2, jsRound]
    norm_num
  exact ⟨h, c8_cpu_normalizer_amended.1 "2500000n" 3 h⟩

/-- C8 counterexample: the pod-metrics normalizer does not round to the
nearest integer millicore — on "1500000n" it yields 1.5, whose denominator
is not 1 — and the node-metrics normalizer maps "" to the raw string "",
not to the number 0. -/
theorem c8_cpu_normalizer_counterexample :
    podCpuMillicores "1500000n" = some (3/2) ∧ ((3 : ℚ)/2).den ≠ 1 ∧
    nodeCpuMillicores "" = JsVal.str "" ∧ JsVal.str "" ≠ JsVal.num 0 := by
  refine ⟨?_, by norm_num, ?_, by simp⟩
  · have h1 : endsWithStr "1500000n" "n" = true := by decide
    have h2 : parseIntJs (dropRightStr "1500000n" 1) = some 1500000 := by decide
    simp [podCpuMillicores, h1, h2, toFixed]
    norm_num
  · have h1 : endsWithStr "" "n" = false := by decide
    simp [nodeCpuMillicores, h1]

/-- C9, corrected claim: the pod-metrics memory normalizer behaves exactly
as stated — Ki-suffixed values are multiplied by 1024, other values are
parsed as plain integers with 0 on parse failure, and "1024Ki" and "" map
to 1048576 and 0 bytes — but the node-metrics memory normalizer passes
non-Ki-suffixed strings through unchanged (no parse, no 0 default). -/
theorem c9_memory_normalizer_amended :
    podMemoryBytes "1024Ki" = some 1048576 ∧
    podMemoryBytes "" = some 0 ∧
    (∀ s n, endsWithStr s "Ki" = false → parseIntJs s = some n →
      podMemoryBytes s = some ((n : ℤ) : ℚ)) ∧
    (∀ s, endsWithStr s "Ki" = false → parseIntJs s = none →
      podMemoryBytes s = some 0) ∧
    (∀ s n, endsWithStr s "Ki" = true → parseIntJs (dropRightStr s 2) = some n →
      podMemoryBytes s = some (((n : ℤ) : ℚ) * 1024)) ∧
    (∀ s, endsWithStr s "Ki" = false → nodeMemoryBytes s = JsVal.str s) := by
  refine ⟨?_, ?_, ?_, ?_, ?_, ?_⟩
  · have h1 : endsWithStr "1024Ki" "Ki" = true := by decide
    have h2 : parseIntJs (dropRightStr "1024Ki" 2) = some 1024 := by decide
    simp [podMemoryBytes, h1, h2]
    norm_num
  · have h1 : endsWithStr "" "Ki" = false := by decide
    have h2 : parseIntJs "" = none := by decide
    simp [podMemoryBytes, h1, h2]
  · intro s n he hp
    simp [podMemoryBytes, he, hp]
  · intro s he hp
    simp [podMemoryBytes, he, hp]
  · intro s n he hp
    simp [podMemoryBytes, he, hp]
  · intro s he
    simp [nodeMemoryBytes, he]

/-- Witness for c9_memory_normalizer_amended at a concrete input. -/
theorem c9_memory_normalizer_amended_witness :
    endsWithStr "4096" "Ki" = false ∧ parseIntJs "4096" = some 4096 ∧
    podMemoryBytes "4096" = some 4096 := by
  have h1 : endsWithStr "4096" "Ki" = false := by decide
  have h2 : parseIntJs "4096" = some 4096 := by decide
  exact ⟨h1, h2, c9_memory_normalizer_amended.2.2.1 "4096" 4096 h1 h2⟩

/-- C9 counterexample: the node-metrics memory conversion cited by the
claim maps "" to the raw string "" (pass-through), not to the byte count
0. -/
theorem c9_memory_normalizer_counterexample :
    nodeMemoryBytes "" = JsVal.str "" ∧ JsVal.str "" ≠ JsVal.num 0 := by
  constructor
  · have h1 : endsWithStr "" "Ki" = false := by decide
    simp [nodeMemoryBytes, h1]
  · simp

/-- C10: every send and every close on the client channel in the stream
bridge is guarded by a readyState-is-OPEN check — when the client channel
is not OPEN, no handler of connectToPodTerminal or streamPodLogs performs
any client-channel action, so remote stdout/stderr/log bytes arriving
after the channel left OPEN are dropped and the exit, setup-error and
stream-error handlers never close a non-open channel. -/
theorem c10_client_actions_guarded :
    ∀ (te : TermEvent) (le : LogEvent) (st : WsState), st ≠ WsState.OPEN →
      terminalClientActions te st = [] ∧ logClientActions le st = [] := by
  intro te le st h
  constructor
  · cases te <;> simp [terminalClientActions, h]
  · cases le <;> simp [logClientActions, h]

/-- Witness for c10_client_actions_guarded: a late stdout chunk and a log
stream error on a CLOSED channel produce no client-channel action. -/
theorem c10_client_actions_guarded_witness :
    terminalClientActions (TermEvent.stdoutData "late") WsState.CLOSED = [] ∧
    logClientActions LogEvent.logStreamError WsState.CLOSED = [] :=
  c10_client_actions_guarded (TermEvent.stdoutData "late")
    LogEvent.logStreamError WsState.CLOSED (by decide)

/-- C3: a terminal-bridge session started with no explicit container name
(any falsy value) on a pod whose spec.containers list is empty fails
during container resolution: no remote exec channel is ever opened, and
the open client channel is closed with the abnormal code 1011 (distinct
from the normal-closure code 1000) and an error message naming the pod. -/
theorem c3_empty_containers_fails_setup :
    ∀ (containerName : Option String) (podName : String),
      jsTruthyStr containerName = false →
      connectToPodTerminal containerName (Except.ok []) podName WsState.OPEN
        = { execContainer := none
            clientActions := [ClientAction.close 1011
              ("Error setting up exec: " ++ ("No containers found in pod: " ++ podName))] }
      ∧ (1011 : Nat) ≠ 1000 := by
  intro cn podName h
  refine ⟨?_, by decide⟩
  simp [connectToPodTerminal, resolveTargetContainer, h]

/-- Witness for c3_empty_containers_fails_setup with no container name on
pod web-1. -/
theorem c3_empty_containers_fails_setup_witness :
    jsTruthyStr none = false ∧
    connectToPodTerminal none (Except.ok []) "web-1" WsState.OPEN
      = { execContainer := none
          clientActions := [ClientAction.close 1011
            ("Error setting up exec: " ++ ("No containers found in pod: " ++ "web-1"))] } :=
  ⟨rfl, (c3_empty_containers_fails_setup none "web-1" rfl).1⟩

/-- C4: when the metrics fetch fails in any way (thrown error or
malformed response), the metrics map used for enrichment is the empty
map, the getAllPods orchestrator call still succeeds whenever the pod
listing itself succeeded, and every returned record's metrics field is
the null marker. -/
theorem c4_metrics_failure_degrades :
    ∀ (mf : Except String (Option (List PodMetricItem))) (items : List RawPod),
      metricsFetchFailed mf = true →
      getPodMetrics mf = [] ∧
      getAllPods (Except.ok (some items)) mf
        = Except.ok (items.map (fun pod => transformPodData pod [])) ∧
      ∀ r ∈ items.map (fun pod => transformPodData pod (getPodMetrics mf)),
        r.metrics = none := by
  intro mf items hf
  have hempty : getPodMetrics mf = [] := by
    cases mf with
    | error e => rfl
    | ok o =>
        cases o with
        | none => rfl
        | some l => simp [metricsFetchFailed] at hf
  refine ⟨hempty, ?_, ?_⟩
  · simp [getAllPods, hempty]
  · intro r hr
    rw [hempty] at hr
    simp only [List.mem_map] at hr
    obtain ⟨pod, _, rfl⟩ := hr
    rfl

/-- Witness for c4_metrics_failure_degrades: a connection-refused metrics
fetch with a one-pod listing. -/
theorem c4_metrics_failure_degrades_witness :
    metricsFetchFailed (Except.error "connect ECONNREFUSED") = true ∧
    getAllPods
        (Except.ok (some [⟨some "web-1", some "default", some "Running", none, none, none⟩]))
        (Except.error "connect ECONNREFUSED")
      = Except.ok
          [transformPodData ⟨some "web-1", some "default", some "Running", none, none, none⟩ []] := by
  refine ⟨rfl, ?_⟩
  have h := c4_metrics_failure_degrades (Except.error "connect ECONNREFUSED")
    [⟨some "web-1", some "default", some "Running", none, none, none⟩] rfl
  simpa using h.2.1

/-- Helper: updating a group different from the looked-up name leaves the
lookup unchanged. -/
lemma lookupGroup_updateGroup_ne (m : List (String × PhaseCounts)) (k name : String)
    (ph : Option String) (h : k ≠ name) :
    lookupGroup (updateGroup m k ph) name = lookupGroup m name := by
  induction m with
  | nil => simp [updateGroup, lookupGroup, h]
  | cons kv rest ih =>
      obtain ⟨k0, c0⟩ := kv
      by_cases hk : k0 = k
      · subst hk
        simp [updateGroup, lookupGroup, h]
      · simp [updateGroup, hk, lookupGroup, ih]

/-- Helper: a group name extracted from no pod of the listing is absent
from the resulting group map. -/
lemma lookupGroup_countFold_none (f : RawPod → Option String) (name : String) :
    ∀ (pods : List RawPod) (m : List (String × PhaseCounts)),
      (∀ p ∈ pods, f p ≠ some name) →
      lookupGroup m name = none →
      lookupGroup (pods.foldl (countStep f) m) name = none := by
  intro pods
  induction pods with
  | nil => intro m _ hm; simpa using hm
  | cons p rest ih =>
      intro m hall hm
      have hp : f p ≠ some name := hall p (List.mem_cons_self _ _)
      have hrest : ∀ q ∈ rest, f q ≠ some name :=
        fun q hq => hall q (List.mem_cons_of_mem _ hq)
      simp only [List.foldl_cons]
      apply ih _ hrest
      unfold countStep
      cases hfp : f p with
      | none => exact hm
      | some k =>
          by_cases hk : k = ""
          · simp [hk, hm]
          · have hkname : k ≠ name := by
              intro hkn
              exact hp (hkn ▸ hfp)
            show lookupGroup (if k = "" then m else updateGroup m k p.phase) name = none
            rw [if_neg hk, lookupGroup_updateGroup_ne _ _ _ _ hkname]
            exact hm

/-- C6: a node (or namespace) name matched by no pod of the pod listing
receives the explicit all-zero phase histogram from the enrichment step,
not an absent entry. -/
theorem c6_zero_counts_for_unmatched_group :
    ∀ (pods : List RawPod) (name : String),
      ((∀ p ∈ pods, p.nodeName ≠ some name) →
        nodePodsField (countPodsByGroup pods (fun p => p.nodeName)) (some name)
          = ⟨0, 0, 0, 0, 0⟩) ∧
      ((∀ p ∈ pods, p.ns ≠ some name) →
        nodePodsField (countPodsByGroup pods (fun p => p.ns)) (some name)
          = ⟨0, 0, 0, 0, 0⟩) := by
  intro pods name
  constructor <;> intro hall
  · have h := lookupGroup_countFold_none (fun p => p.nodeName) name pods [] hall rfl
    simp [nodePodsField, countPodsByGroup, h]
  · have h := lookupGroup_countFold_none (fun p => p.ns) name pods [] hall rfl
    simp [nodePodsField, countPodsByGroup, h]

/-- Witness for c6_zero_counts_for_unmatched_group: a listing whose only
pod runs on node-a yields the zero histogram for node-x. -/
theorem c6_zero_counts_for_unmatched_group_witness :
    nodePodsField
        (countPodsByGroup
          [⟨some "web-1", some "default", some "Running", none, none, some "node-a"⟩]
          (fun p => p.nodeName))
        (some "node-x")
      = ⟨0, 0, 0, 0, 0⟩ := by
  apply (c6_zero_counts_for_unmatched_group
    [⟨some "web-1", some "default", some "Running", none, none, some "node-a"⟩] "node-x").1
  intro p hp
  simp only [List.mem_singleton] at hp
  subst hp
  simp

/-- Helper: the total field always increments by exactly one per pod. -/
lemma bumpPhase_total (c : PhaseCounts) (ph : Option String) :
    (bumpPhase c ph).total = c.total + 1 := by
  unfold bumpPhase
  repeat' split
  all_goals rfl

/-- Helper: one phase bump preserves the phase-sum bound. -/
lemma bumpPhase_sum_le (c : PhaseCounts) (ph : Option String)
    (h : c.running + c.pending + c.failed + c.succeeded ≤ c.total) :
    (bumpPhase c ph).running + (bumpPhase c ph).pending + (bumpPhase c ph).failed
      + (bumpPhase c ph).succeeded ≤ (bumpPhase c ph).total := by
  unfold bumpPhase
  repeat' split
  all_goals simp
  all_goals omega

/-- Helper: an unrecognised phase value increments total only. -/
lemma bumpPhase_unrecognized (c : PhaseCounts) (ph : Option String)
    (h1 : ph ≠ some "Running") (h2 : ph ≠ some "Pending")
    (h3 : ph ≠ some "Failed") (h4 : ph ≠ some "Succeeded") :
    bumpPhase c ph = { c with total := c.total + 1 } := by
  simp [bumpPhase, h1, h2, h3, h4]

/-- Helper: updateGroup preserves the phase-sum bound of every entry. -/
lemma updateGroup_entries_le (m : List (String × PhaseCounts)) (k : String)
    (ph : Option String)
    (hm : ∀ e ∈ m, e.2.running + e.2.pending + e.2.failed + e.2.succeeded ≤ e.2.total) :
    ∀ e ∈ updateGroup m k ph,
      e.2.running + e.2.pending + e.2.failed + e.2.succeeded ≤ e.2.total := by
  induction m with
  | nil =>
      intro e he
      simp only [updateGroup, List.mem_singleton] at he
      subst he
      exact bumpPhase_sum_le ⟨0, 0, 0, 0, 0⟩ ph (by simp)
  | cons kv rest ih =>
      intro e he
      obtain ⟨k0, c0⟩ := kv
      by_cases hk : k0 = k
      · rw [show updateGroup ((k0, c0) :: rest) k ph
            = (k0, bumpPhase c0 ph) :: rest by simp [updateGroup, hk]] at he
        rcases List.mem_cons.mp he with h | h
        · subst h
          exact bumpPhase_sum_le c0 ph (hm (k0, c0) (List.mem_cons_self _ _))
        · exact hm e (List.mem_cons_of_mem _ h)
      · rw [show updateGroup ((k0, c0) :: rest) k ph
            = (k0, c0) :: updateGroup rest k ph by simp [updateGroup, hk]] at he
        rcases List.mem_cons.mp he with h | h
        · subst h
          exact hm (k0, c0) (List.mem_cons_self _ _)
        · exact ih (fun e2 he2 => hm e2 (List.mem_cons_of_mem _ he2)) e h

/-- Helper: the counting fold preserves the phase-sum bound of every
entry of the group map. -/
lemma countFold_entries_le (f : RawPod → Option String) :
    ∀ (pods : List RawPod) (m : List (String × PhaseCounts)),
      (∀ e ∈ m, e.2.running + e.2.pending + e.2.failed + e.2.succeeded ≤ e.2.total) →
      ∀ e ∈ pods.foldl (countStep f) m,
        e.2.running + e.2.pending + e.2.failed + e.2.succeeded ≤ e.2.total := by
  intro pods
  induction pods with
  | nil => intro m hm; simpa using hm
  | cons p rest ih =>
      intro m hm
      simp only [List.foldl_cons]
      apply ih
      unfold countStep
      cases hfp : f p with
      | none => exact hm
      | some k =>
          by_cases hk : k = ""
          · show (∀ e ∈ (if k = "" then m else updateGroup m k p.phase),
              e.2.running + e.2.pending + e.2.failed + e.2.succeeded ≤ e.2.total)
            rw [if_pos hk]
            exact hm
          · show (∀ e ∈ (if k = "" then m else updateGroup m k p.phase),
              e.2.running + e.2.pending + e.2.failed + e.2.succeeded ≤ e.2.total)
            rw [if_neg hk]
            exact updateGroup_entries_le m k p.phase hm

/-- Helper: updateGroup adds exactly one to the sum of totals. -/
lemma sumTotals_updateGroup (m : List (String × PhaseCounts)) (k : String)
    (ph : Option String) :
    sumTotals (updateGroup m k ph) = sumTotals m + 1 := by
  induction m with
  | nil => simp [updateGroup, sumTotals, bumpPhase_total]
  | cons kv rest ih =>
      obtain ⟨k0, c0⟩ := kv
      by_cases hk : k0 = k
      · simp [updateGroup, hk, sumTotals, bumpPhase_total]
        omega
      · simp only [updateGroup, hk, if_false, sumTotals, List.map_cons, List.sum_cons] at ih ⊢
        omega

/-- Helper: the sum of totals over the group map equals the number of
pods whose group key was truthy. -/
lemma sumTotals_countFold (f : RawPod → Option String) :
    ∀ (pods : List RawPod) (m : List (String × PhaseCounts)),
      sumTotals (pods.foldl (countStep f) m)
        = sumTotals m + (pods.filter (fun p => jsTruthyStr (f p))).length := by
  intro pods
  induction pods with
  | nil => intro m; simp
  | cons p rest ih =>
      intro m
      simp only [List.foldl_cons]
      rw [ih]
      cases hfp : f p with
      | none =>
          have ht : jsTruthyStr (f p) = false := by rw [hfp]; rfl
          have hstep : countStep f m p = m := by unfold countStep; rw [hfp]
          simp [hstep, List.filter_cons, ht]
      | some k =>
          by_cases hk : k = ""
          · have ht : jsTruthyStr (f p) = false := by
              rw [hfp]; simp [jsTruthyStr, hk]
            have hstep : countStep f m p = m := by
              unfold countStep; rw [hfp]; exact if_pos hk
            simp [hstep, List.filter_cons, ht]
          · have ht : jsTruthyStr (f p) = true := by
              rw [hfp]; simp [jsTruthyStr, hk]
            have hstep : countStep f m p = updateGroup m k p.phase := by
              unfold countStep; rw [hfp]; exact if_neg hk
            simp [hstep, List.filter_cons, ht, sumTotals_updateGroup]
            omega

/-- Helper: pods with a falsy group key leave the fold unchanged, so the
whole count only depends on the truthy-keyed pods. -/
lemma countFold_skip_untruthy (f : RawPod → Option String) :
    ∀ (pods : List RawPod) (m : List (String × PhaseCounts)),
      pods.foldl (countStep f) m
        = (pods.filter (fun p => jsTruthyStr (f p))).foldl (countStep f) m := by
  intro pods
  induction pods with
  | nil => intro m; rfl
  | cons p rest ih =>
      intro m
      cases hfp : f p with
      | none =>
          have ht : jsTruthyStr (f p) = false := by rw [hfp]; rfl
          have hstep : countStep f m p = m := by unfold countStep; rw [hfp]
          simp only [List.foldl_cons, List.filter_cons, ht, Bool.false_eq_true,
            if_false, hstep]
          exact ih m
      | some k =>
          by_cases hk : k = ""
          · have ht : jsTruthyStr (f p) = false := by
              rw [hfp]; simp [jsTruthyStr, hk]
            have hstep : countStep f m p = m := by
              unfold countStep; rw [hfp]; exact if_pos hk
            simp only [List.foldl_cons, List.filter_cons, ht, Bool.false_eq_true,
              if_false, hstep]
            exact ih m
          · have ht : jsTruthyStr (f p) = true := by
              rw [hfp]; simp [jsTruthyStr, hk]
            simp only [List.foldl_cons, List.filter_cons, ht, if_true]
            exact ih (countStep f m p)

/-- C5: for any pod listing and group key extractor, every group of the
aggregate counter satisfies running+pending+failed+succeeded <= total;
pods with an unresolvable (absent or empty) group key are counted in no
group, so the result equals the count over the truthy-keyed pods alone;
the totals summed over all groups equal the number of pods with a
resolvable group key; and an unrecognised phase value increments total
only. -/
theorem c5_phase_count_invariants :
    ∀ (pods : List RawPod) (f : RawPod → Option String),
      (∀ e ∈ countPodsByGroup pods f,
        e.2.running + e.2.pending + e.2.failed + e.2.succeeded ≤ e.2.total) ∧
      countPodsByGroup pods f
        = countPodsByGroup (pods.filter (fun p => jsTruthyStr (f p))) f ∧
      sumTotals (countPodsByGroup pods f)
        = (pods.filter (fun p => jsTruthyStr (f p))).length ∧
      (∀ (c : PhaseCounts) (ph : Option String),
        ph ≠ some "Running" → ph ≠ some "Pending" → ph ≠ some "Failed" →
        ph ≠ some "Succeeded" → bumpPhase c ph = { c with total := c.total + 1 }) := by
  intro pods f
  refine ⟨?_, ?_, ?_, ?_⟩
  · exact countFold_entries_le f pods [] (by simp)
  · exact countFold_skip_untruthy f pods []
  · simpa [sumTotals] using sumTotals_countFold f pods []
  · exact fun c ph h1 h2 h3 h4 => bumpPhase_unrecognized c ph h1 h2 h3 h4

/-- Witness for c5_phase_count_invariants: bumping an unrecognised phase
(Evicted) increments total only. -/
theorem c5_phase_count_invariants_witness :
    bumpPhase ⟨5, 2, 1, 1, 1⟩ (some "Evicted") = ⟨6, 2, 1, 1, 1⟩ :=
  (c5_phase_count_invariants [] (fun p => p.nodeName)).2.2.2
    ⟨5, 2, 1, 1, 1⟩ (some "Evicted") (by simp) (by simp) (by simp) (by simp)

/-- Helper: consuming one optional string moves it into the default slot
of lastNonEmptySpec exactly like a JS truthy overwrite. -/
lemma lastNonEmptySpec_cons (v : Option String) (xs : List (Option String)) (d : String) :
    lastNonEmptySpec (v :: xs) d = lastNonEmptySpec xs (jsOr v d) := by
  cases v with
  | none => simp [lastNonEmptySpec, jsOr]
  | some s =>
      by_cases hs : s = ""
      · subst hs
        simp [lastNonEmptySpec, jsOr]
      · unfold lastNonEmptySpec
        rw [show (some s :: xs).filterMap id = s :: xs.filterMap id by simp]
        rw [List.filter_cons_of_pos (by simpa using hs)]
        rw [List.getLastD_cons]
        simp [jsOr, hs]

/-- Helper: any field of the resource fold whose step is a truthy
overwrite computes the last non-empty extracted value. -/
lemma foldl_resStep_proj (g : ResAcc → String) (e : ContainerSpec → Option String)
    (hg : ∀ a c, g (resStep a c) = jsOr (e c) (g a)) :
    ∀ (cs : List ContainerSpec) (a : ResAcc),
      g (cs.foldl resStep a) = lastNonEmptySpec (cs.map e) (g a) := by
  intro cs
  induction cs with
  | nil => intro a; simp [lastNonEmptySpec]
  | cons c cs ih =>
      intro a
      simp only [List.foldl_cons, List.map_cons]
      rw [lastNonEmptySpec_cons, ih, hg]

/-- C1, corrected claim: for every raw pod, each of the four top-level
resource strings (requests.cpu, requests.memory, limits.cpu,
limits.memory) independently holds the LAST non-empty value encountered
while iterating the containers in spec order (defaulting to "0" when no
container supplies one) — each truthy value overwrites the accumulator,
so a later container's value wins, not the first one. -/
theorem c1_resources_last_nonempty_amended :
    ∀ (pod : RawPod) (m : List (String × PodSample)),
      (transformPodData pod m).resources.reqCpu
        = lastNonEmptySpec ((pod.containers.getD []).map extractReqCpu) "0" ∧
      (transformPodData pod m).resources.reqMem
        = lastNonEmptySpec ((pod.containers.getD []).map extractReqMem) "0" ∧
      (transformPodData pod m).resources.limCpu
        = lastNonEmptySpec ((pod.containers.getD []).map extractLimCpu) "0" ∧
      (transformPodData pod m).resources.limMem
        = lastNonEmptySpec ((pod.containers.getD []).map extractLimMem) "0" := by
  intro pod m
  refine ⟨?_, ?_, ?_, ?_⟩
  · exact foldl_resStep_proj (fun a => a.reqCpu) extractReqCpu
      (fun a c => rfl) (pod.containers.getD []) ⟨"0", "0", "0", "0"⟩
  · exact foldl_resStep_proj (fun a => a.reqMem) extractReqMem
      (fun a c => rfl) (pod.containers.getD []) ⟨"0", "0", "0", "0"⟩
  · exact foldl_resStep_proj (fun a => a.limCpu) extractLimCpu
      (fun a c => rfl) (pod.containers.getD []) ⟨"0", "0", "0", "0"⟩
  · exact foldl_resStep_proj (fun a => a.limMem) extractLimMem
      (fun a c => rfl) (pod.containers.getD []) ⟨"0", "0", "0", "0"⟩

/-- C1 counterexample: on a pod whose two containers request cpu "100m"
and "200m", the transformed record holds "200m" — the later container's
value — while the first non-empty value is "100m". -/
theorem c1_resources_counterexample :
    (transformPodData
        ⟨some "web-1", some "default", some "Running", none,
          some [⟨"a", some ⟨some ⟨some "100m", none⟩, none⟩⟩,
                ⟨"b", some ⟨some ⟨some "200m", none⟩, none⟩⟩], none⟩
        []).resources.reqCpu = "200m" ∧
    firstNonEmptySpec
        ([⟨"a", some ⟨some ⟨some "100m", none⟩, none⟩⟩,
          ⟨"b", some ⟨some ⟨some "200m", none⟩, none⟩⟩].map extractReqCpu) "0"
      = "100m" ∧
    ("200m" : String) ≠ "100m" := by
  refine ⟨by decide, by decide, by decide⟩

/-- Helper: readiness is exactly the statement that the first Ready-typed
condition in list order has status exactly "True". -/
lemma isReadyPod_iff (l : List PodCondition) :
    isReadyPod l = true ↔
      ∃ pre c post, l = pre ++ c :: post ∧
        (∀ c0 ∈ pre, c0.type ≠ some "Ready") ∧
        c.type = some "Ready" ∧ c.status = some "True" := by
  constructor
  · intro h
    unfold isReadyPod at h
    cases hf : l.find? (fun c => c.type = some "Ready") with
    | none => rw [hf] at h; cases h
    | some c =>
        rw [hf] at h
        rw [List.find?_eq_some] at hf
        obtain ⟨hc, pre, post, heq, hpre⟩ := hf
        exact ⟨pre, c, post, heq, fun c0 h0 => by simpa using hpre c0 h0,
          by simpa using hc, by simpa using h⟩
  · rintro ⟨pre, c, post, heq, hpre, hc, hs⟩
    have hf : l.find? (fun c => c.type = some "Ready") = some c :=
      List.find?_eq_some.mpr
        ⟨by simpa using hc, pre, post, heq, fun a ha => by simpa using hpre a ha⟩
    unfold isReadyPod
    rw [hf]
    simpa using hs

/-- C7, corrected claim: the transformed record's status.ready is true
iff the FIRST condition of type "Ready" in list order exists and has
status exactly the string "True" (case-sensitive): the code reads only
the first Ready-typed condition, so a later Ready condition cannot make
the pod ready.  When Ready-typed conditions are unique — the normal
cluster situation — this coincides with the claimed
there-exists-a-Ready-True-condition reading. -/
theorem c7_ready_amended :
    ∀ (pod : RawPod) (m : List (String × PodSample)),
      ((transformPodData pod m).ready = true ↔
        ∃ pre c post, pod.conditions.getD [] = pre ++ c :: post ∧
          (∀ c0 ∈ pre, c0.type ≠ some "Ready") ∧
          c.type = some "Ready" ∧ c.status = some "True") := by
  intro pod m
  exact isReadyPod_iff (pod.conditions.getD [])

/-- C7 counterexample: a pod whose conditions list holds a Ready/False
condition before a Ready/True condition contains a Ready condition with
status "True", yet the transformer reports ready = false. -/
theorem c7_ready_counterexample :
    (transformPodData
        ⟨some "web-1", some "default", some "Running",
          some [⟨some "Ready", some "False"⟩, ⟨some "Ready", some "True"⟩],
          none, none⟩ []).ready = false ∧
    (([⟨some "Ready", some "False"⟩, ⟨some "Ready", some "True"⟩] :
        List PodCondition).any
      (fun c => decide (c.type = some "Ready") && decide (c.status = some "True")))
      = true := by
  refine ⟨by decide, by decide⟩

/-- Helper: one metrics loop step adds this container's converted memory
bytes to the running total, independently of the raw-capture branch. -/
lemma metricsLoopStep_totalMem (a : MetricsLoopAcc) (c : ContainerUsage) :
    (metricsLoopStep a c).totalMemoryUsage
      = jsAdd a.totalMemoryUsage (podMemoryBytes (jsOr c.memory "0")) := by
  unfold metricsLoopStep
  dsimp only
  split <;> rfl

/-- Helper: one metrics loop step adds this container's converted cpu
millicores to the running total. -/
lemma metricsLoopStep_totalCpu (a : MetricsLoopAcc) (c : ContainerUsage) :
    (metricsLoopStep a c).totalCpuUsage
      = jsAdd a.totalCpuUsage (podCpuMillicores (jsOr c.cpu "0")) := by
  unfold metricsLoopStep
  dsimp only
  split <;> rfl

/-- Helper: the cpu total of the metrics loop is the fold of the
per-container normalized (two-decimal-rounded) millicores. -/
lemma totalCpu_foldl (cs : List ContainerUsage) :
    ∀ a : MetricsLoopAcc,
      (cs.foldl metricsLoopStep a).totalCpuUsage
        = cs.foldl (fun acc c => jsAdd acc (podCpuMillicores (jsOr c.cpu "0")))
            a.totalCpuUsage := by
  induction cs with
  | nil => intro a; rfl
  | cons c rest ih =>
      intro a
      simp only [List.foldl_cons]
      rw [ih, metricsLoopStep_totalCpu]

/-- Helper: when every container's defaulted memory string is Ki-suffixed
with a parseable integer, the memory total of the metrics loop equals
1024 times the sum of the raw Ki integers — the per-container conversion
is exact, so summing converted values equals converting the raw sum. -/
lemma totalMem_foldl_ki (cs : List ContainerUsage) :
    ∀ (a : MetricsLoopAcc) (q : ℚ),
      a.totalMemoryUsage = some q →
      (∀ c ∈ cs, (kiInt c).isSome) →
      (cs.foldl metricsLoopStep a).totalMemoryUsage
        = some (q + ((cs.map (fun c => (((kiInt c).getD 0 : ℤ) : ℚ))).sum) * 1024) := by
  induction cs with
  | nil =>
      intro a q hq _
      simpa using hq
  | cons c rest ih =>
      intro a q hq hall
      have hc : (kiInt c).isSome := hall c (List.mem_cons_self _ _)
      obtain ⟨n, hn⟩ := Option.isSome_iff_exists.mp hc
      have hpm : podMemoryBytes (jsOr c.memory "0") = some ((n : ℚ) * 1024) := by
        unfold kiInt at hn
        by_cases he : endsWithStr (jsOr c.memory "0") "Ki" = true
        · rw [if_pos he] at hn
          unfold podMemoryBytes
          rw [if_pos he, hn]
          rfl
        · rw [if_neg he] at hn
          cases hn
      have hstep : (metricsLoopStep a c).totalMemoryUsage = some (q + (n : ℚ) * 1024) := by
        rw [metricsLoopStep_totalMem, hq, hpm]
        rfl
      simp only [List.foldl_cons]
      rw [ih (metricsLoopStep a c) (q + (n : ℚ) * 1024) hstep
        (fun c2 h2 => hall c2 (List.mem_cons_of_mem _ h2))]
      simp only [List.map_cons, List.sum_cons, hn, Option.getD_some]
      congr 1
      ring

/-- C2, corrected claim: per-container raw values ARE individually
normalized and then summed.  For memory the per-container Ki-to-bytes
conversion is exact, so the sample's bytes field still equals 1024 times
the sum of the raw Ki integers, matching normalize-once; for CPU each
container's nanocores are rounded to two-decimal millicores before the
sum (and the total is rounded again), which can differ from normalizing
the raw nanocore sum once. -/
theorem c2_metrics_amended :
    (∀ cs : List ContainerUsage, (∀ c ∈ cs, (kiInt c).isSome) →
      (podSampleOfContainers cs).memory.bytes
        = some (((cs.map (fun c => (((kiInt c).getD 0 : ℤ) : ℚ))).sum) * 1024)) ∧
    (∀ cs : List ContainerUsage,
      (podSampleOfContainers cs).cpu.millicores
        = toFixedOpt 2
            (cs.foldl (fun acc c => jsAdd acc (podCpuMillicores (jsOr c.cpu "0")))
              (some 0))) := by
  constructor
  · intro cs hall
    show (cs.foldl metricsLoopStep ⟨"", "", some 0, some 0⟩).totalMemoryUsage = _
    rw [totalMem_foldl_ki cs ⟨"", "", some 0, some 0⟩ 0 rfl hall]
    norm_num
  · intro cs
    show toFixedOpt 2 (cs.foldl metricsLoopStep ⟨"", "", some 0, some 0⟩).totalCpuUsage = _
    rw [totalCpu_foldl cs ⟨"", "", some 0, some 0⟩]

/-- Witness for c2_metrics_amended: a single container using 64Ki of
memory yields exactly 65536 bytes. -/
theorem c2_metrics_amended_witness :
    (∀ c ∈ ([⟨some "500000n", some "64Ki"⟩] : List ContainerUsage), (kiInt c).isSome) ∧
    (podSampleOfContainers [⟨some "500000n", some "64Ki"⟩]).memory.bytes
      = some 65536 := by
  have hki : kiInt ⟨some "500000n", some "64Ki"⟩ = some 64 := by decide
  have hall : ∀ c ∈ ([⟨some "500000n", some "64Ki"⟩] : List ContainerUsage),
      (kiInt c).isSome := by
    intro c hc
    simp only [List.mem_singleton] at hc
    subst hc
    rw [hki]
    rfl
  refine ⟨hall, ?_⟩
  have h := c2_metrics_amended.1 [⟨some "500000n", some "64Ki"⟩] hall
  rw [h]
  simp only [List.map_cons, List.map_nil, List.sum_cons, List.sum_nil, hki,
    Option.getD_some]
  norm_num

/-- C2 counterexample: two containers each using 1004000 nanocores.  The
joiner rounds each container to 1.00 millicores and reports 2, while
summing the raw nanocores first and normalizing once yields 2.01 — the
millicores field is the sum of per-container already-rounded values, not
the normalization of the raw sum. -/
theorem c2_metrics_counterexample :
    (podSampleOfContainers
        [⟨some "1004000n", some "64Ki"⟩, ⟨some "1004000n", some "64Ki"⟩]).cpu.millicores
      = some 2 ∧
    specCpuSumThenNormalizeOnce
        [⟨some "1004000n", some "64Ki"⟩, ⟨some "1004000n", some "64Ki"⟩]
      = some (201/100) ∧
    some (2 : ℚ) ≠ some (201/100 : ℚ) := by
  have h1 : endsWithStr "1004000n" "n" = true := by decide
  have h2 : parseIntJs (dropRightStr "1004000n" 1) = some 1004000 := by decide
  have h3 : jsOr (some "1004000n") "0" = "1004000n" := by decide
  have hpod : podCpuMillicores "1004000n" = some 1 := by
    simp [podCpuMillicores, h1, h2, toFixed]
    norm_num
  refine ⟨?_, ?_, ?_⟩
  · show toFixedOpt 2
        (([⟨some "1004000n", some "64Ki"⟩, ⟨some "1004000n", some "64Ki"⟩] :
            List ContainerUsage).foldl
          metricsLoopStep ⟨"", "", some 0, some 0⟩).totalCpuUsage
      = some 2
    rw [totalCpu_foldl]
    simp only [List.foldl_cons, List.foldl_nil, h3, hpod]
    simp only [jsAdd]
    norm_num [toFixedOpt, toFixed]
  · unfold specCpuSumThenNormalizeOnce
    simp only [List.foldl_cons, List.foldl_nil, h3, h1, if_true, h2,
      Option.map_some']
    simp only [jsAdd]
    norm_num [toFixedOpt, toFixed]
  · simp only [ne_eq, Option.some.injEq]
    norm_num
